import Mathlib

/-!
Shallow embedding of the conversations TRPC router
(`web/src/server/api/routers/conversations.ts`) of the assistant feature:
data model (conversations, messages, LLM API keys), the `all`, `byId` and
`sendMessage` procedures, and the input schema for `sendMessage`.

Timestamps are modelled as naturals.  Database rows live in lists; Prisma
`findFirst` is `List.find?`, `findMany` with `orderBy` is a filter followed
by `List.insertionSort`, `take n` is `List.take n`, `create` appends a fresh
row, `update` maps over the rows.  The external completion helper
`fetchLLMCompletion` is modelled by a `ProviderOutcome` parameter describing
what the call would do (return text, return a non-text value, or throw);
`LLMApiKeySchema.safeParse` is modelled by a `parseOk` flag on the stored
key together with the parse error message.
-/

namespace Conversations

/-- The `MessageSender` enum of the Prisma schema. -/
inductive MessageSender where
  | USER
  | ASSISTANT
deriving DecidableEq

/-- A row of the `messages` table: id, creation timestamp, parent
conversation, sender role and text content. -/
structure Message where
  id : Nat
  createdAt : Nat
  conversationId : Nat
  sender : MessageSender
  content : String
deriving DecidableEq

/-- A row of the `conversations` table: id, timestamps, owning user and
owning project. -/
structure Conversation where
  id : Nat
  createdAt : Nat
  updatedAt : Nat
  userId : Nat
  projectId : Nat
deriving DecidableEq

/-- A row of the `llmApiKeys` table, reduced to the fields the router
reads: owning project, creation time (used to pick the most recent key),
and whether `LLMApiKeySchema.safeParse` succeeds on it, with the zod error
message when it does not. -/
structure LlmApiKey where
  projectId : Nat
  createdAt : Nat
  parseOk : Bool
  parseErrMsg : String
deriving DecidableEq

/-- The database state visible to the router. -/
structure DB where
  conversations : List Conversation
  messages : List Message
  llmApiKeys : List LlmApiKey
deriving DecidableEq

/-- Ascending creation-time order on messages (`orderBy: createdAt asc`). -/
def msgLE (a b : Message) : Prop := a.createdAt ≤ b.createdAt

instance : DecidableRel msgLE := fun a b =>
  inferInstanceAs (Decidable (a.createdAt ≤ b.createdAt))

instance : IsTotal Message msgLE :=
  ⟨fun a b => Nat.le_total a.createdAt b.createdAt⟩

instance : IsTrans Message msgLE :=
  ⟨fun _ _ _ h1 h2 => Nat.le_trans h1 h2⟩

/-- Descending creation-time order on messages (`orderBy: createdAt desc`). -/
def msgGE (a b : Message) : Prop := b.createdAt ≤ a.createdAt

instance : DecidableRel msgGE := fun a b =>
  inferInstanceAs (Decidable (b.createdAt ≤ a.createdAt))

instance : IsTotal Message msgGE :=
  ⟨fun a b => Nat.le_total b.createdAt a.createdAt⟩

instance : IsTrans Message msgGE :=
  ⟨fun _ _ _ h1 h2 => Nat.le_trans h2 h1⟩

/-- Descending update-time order on conversations (`orderBy: updatedAt desc`). -/
def convGE (a b : Conversation) : Prop := b.updatedAt ≤ a.updatedAt

instance : DecidableRel convGE := fun a b =>
  inferInstanceAs (Decidable (b.updatedAt ≤ a.updatedAt))

instance : IsTotal Conversation convGE :=
  ⟨fun a b => Nat.le_total b.updatedAt a.updatedAt⟩

instance : IsTrans Conversation convGE :=
  ⟨fun _ _ _ h1 h2 => Nat.le_trans h2 h1⟩

/-- Descending creation-time order on LLM API keys (`orderBy: createdAt desc`). -/
def keyGE (a b : LlmApiKey) : Prop := b.createdAt ≤ a.createdAt

instance : DecidableRel keyGE := fun a b =>
  inferInstanceAs (Decidable (b.createdAt ≤ a.createdAt))

instance : IsTotal LlmApiKey keyGE :=
  ⟨fun a b => Nat.le_total b.createdAt a.createdAt⟩

instance : IsTrans LlmApiKey keyGE :=
  ⟨fun _ _ _ h1 h2 => Nat.le_trans h2 h1⟩

/-- TRPC error codes the router can throw, plus the bad-request code zod
validation failures are surfaced as. -/
inductive TRPCErrorCode where
  | NOT_FOUND
  | BAD_REQUEST
deriving DecidableEq

/-- The messages of one conversation (`where: { conversationId }`). -/
def conversationMessages (db : DB) (conversationId : Nat) : List Message :=
  db.messages.filter fun m => m.conversationId == conversationId

/-- The ownership-scoped conversation lookup shared by `byId` and
`sendMessage`: `findFirst` on `{ id, projectId, userId }`. -/
def findConversation (db : DB) (conversationId projectId userId : Nat) :
    Option Conversation :=
  db.conversations.find? fun c =>
    c.id == conversationId && c.projectId == projectId && c.userId == userId

/-- One entry of the `all` listing: the conversation fields the router
copies out, the `_count` of messages, and `messages[0] || null` of the
single most recent message included with `orderBy: createdAt desc, take 1`. -/
structure ConversationSummary where
  id : Nat
  createdAt : Nat
  updatedAt : Nat
  messageCount : Nat
  lastMessage : Option Message
deriving DecidableEq

/-- The mapping applied to each conversation row by the `all` procedure. -/
def conversationSummary (db : DB) (c : Conversation) : ConversationSummary :=
  { id := c.id
    createdAt := c.createdAt
    updatedAt := c.updatedAt
    messageCount := (conversationMessages db c.id).length
    lastMessage := ((conversationMessages db c.id).insertionSort msgGE).head? }

/-- The `all` procedure: conversations of the caller in the project,
ordered by `updatedAt desc`, each mapped to its summary. -/
def all (db : DB) (userId projectId : Nat) : List ConversationSummary :=
  ((db.conversations.filter fun c =>
      c.projectId == projectId && c.userId == userId).insertionSort
    convGE).map (conversationSummary db)

/-- The payload of a successful `byId`: the conversation together with the
included messages. -/
structure ConversationWithMessages where
  conversation : Conversation
  messages : List Message
deriving DecidableEq

/-- The `byId` procedure: ownership-scoped `findFirst` with messages
included in `createdAt asc` order; NOT_FOUND when no row matches. -/
def byId (db : DB) (userId projectId conversationId : Nat) :
    Except TRPCErrorCode ConversationWithMessages :=
  match findConversation db conversationId projectId userId with
  | none => .error .NOT_FOUND
  | some conv =>
      .ok ⟨conv, (conversationMessages db conv.id).insertionSort msgLE⟩

/-- The history query of `sendMessage`: messages of the conversation,
`orderBy: createdAt asc`, `take: 20`. -/
def historyQuery (db : DB) (conversationId : Nat) : List Message :=
  ((conversationMessages db conversationId).insertionSort msgLE).take 20

/-- The key lookup of `sendMessage`: `findFirst` on the project's keys with
`orderBy: createdAt desc`, i.e. the head of the descending sort. -/
def findLlmApiKey (db : DB) (projectId : Nat) : Option LlmApiKey :=
  ((db.llmApiKeys.filter fun k =>
      k.projectId == projectId).insertionSort keyGE).head?

/-- The `ChatMessageRole` enum of the shared server package. -/
inductive ChatMessageRole where
  | System
  | User
  | Assistant
deriving DecidableEq

/-- The `ChatMessageType` enum of the shared server package. -/
inductive ChatMessageType where
  | System
  | User
  | AssistantText
deriving DecidableEq

/-- A `ChatMessage` as passed to `fetchLLMCompletion`. -/
structure ChatMessage where
  type : ChatMessageType
  role : ChatMessageRole
  content : String
deriving DecidableEq

/-- The fixed system instruction the prompt starts with. -/
def systemPromptText : String :=
  "You are a helpful AI assistant integrated into Langfuse. Provide clear, helpful responses to user questions. Keep your responses concise and relevant."

/-- The first element of every prompt built by `sendMessage`. -/
def systemChatMessage : ChatMessage :=
  ⟨.System, .System, systemPromptText⟩

/-- How `sendMessage` maps a stored history message to a chat turn. -/
def chatMessageOfMessage (m : Message) : ChatMessage :=
  match m.sender with
  | .USER => ⟨.User, .User, m.content⟩
  | .ASSISTANT => ⟨.AssistantText, .Assistant, m.content⟩

/-- The chat turn pushed for the current user message. -/
def userChatMessage (content : String) : ChatMessage :=
  ⟨.User, .User, content⟩

/-- The `messages` array handed to `fetchLLMCompletion`: the system
instruction, the mapped history, then the new user content. -/
def buildPrompt (history : List Message) (content : String) :
    List ChatMessage :=
  systemChatMessage :: (history.map chatMessageOfMessage
    ++ [userChatMessage content])

/-- Opening of the catch-branch assistant reply template. -/
def errorResponseIntro : String :=
  "I\x27m sorry, but I encountered an error while processing your request. The error was: "

/-- Closing of the catch-branch assistant reply template. -/
def errorResponseOutro : String :=
  "\n\nPlease check your LLM API configuration in ‚öôÔ∏è Settings ‚Üí \"LLM Connections\" and try again."

/-- The assistant reply produced when the try-block throws, with the
captured error message interpolated. -/
def errorResponse (errMsg : String) : String :=
  errorResponseIntro ++ errMsg ++ errorResponseOutro

/-- Opening of the no-credential onboarding reply, up to the interpolated
user content. -/
def onboardingIntro : String :=
  "Hello! I received your message: \""

/-- Remainder of the no-credential onboarding reply after the interpolated
user content. -/
def onboardingOutro : String :=
  "\".\n\nTo enable AI-powered responses:\n\nüîë **Step 1: Add LLM API Key**\n1. Go to ‚öôÔ∏è Settings ‚Üí \"LLM Connections\"\n2. Click \"Add New API Key\"\n3. Choose your provider:\n   ‚Ä¢ **OpenAI**: Get key from https://platform.openai.com/api-keys\n   ‚Ä¢ **Google AI**: Get key from https://aistudio.google.com/app/apikey\n\nü§ñ **Step 2: Configure Model**\n‚Ä¢ Select your preferred model (e.g., gpt-3.5-turbo, gemini-pro)\n‚Ä¢ Save the configuration\n\nOnce configured, I\x27ll provide intelligent AI responses to all your questions!"

/-- The fixed onboarding reply used when no LLM API key is configured. -/
def onboardingResponse (content : String) : String :=
  onboardingIntro ++ content ++ onboardingOutro

/-- The fixed reply used when the provider returns a non-text completion. -/
def apologyResponse : String :=
  "I apologize, but I couldn\x27t generate a proper response. Please try again."

/-- What the external `fetchLLMCompletion` call (together with credential
decryption) would do if invoked: return text, return a non-text value, or
throw an error carrying a message (`none` models a thrown value that is not
an `Error` instance). -/
inductive ProviderOutcome where
  | success (text : String)
  | nonText
  | failure (errMsg : Option String)
deriving DecidableEq

/-- The credential check, prompt construction and provider call of
`sendMessage`, returning the assistant reply text together with the prompt
passed to the provider (`none` when no provider call was made: no key, or
the key failed schema validation before the prompt was built). -/
def generateResponse (key : Option LlmApiKey) (outcome : ProviderOutcome)
    (history : List Message) (content : String) :
    String × Option (List ChatMessage) :=
  match key with
  | some k =>
      if k.parseOk then
        let messages := buildPrompt history content
        match outcome with
        | .success text => (text, some messages)
        | .nonText => (apologyResponse, some messages)
        | .failure errMsg =>
            (errorResponse (errMsg.getD "Unknown error"), some messages)
      else
        (errorResponse ("Invalid API key configuration: " ++ k.parseErrMsg),
          none)
  | none => (onboardingResponse content, none)

/-- The validated input of `sendMessage`. -/
structure SendInput where
  projectId : Nat
  conversationId : Nat
  content : String
deriving DecidableEq

/-- The payload returned by `sendMessage`, extended with the prompt that
was sent to the provider (if any) so theorems can speak about it. -/
structure SendOutput where
  userMessage : Message
  assistantMessage : Message
  llmPrompt : Option (List ChatMessage)
deriving DecidableEq

/-- Model of `prisma.conversation.update({ where: { id }, data: { updatedAt } })`. -/
def updateConversationTimestamp (db : DB) (conversationId t : Nat) : DB :=
  { db with conversations := db.conversations.map fun c =>
      if c.id == conversationId then { c with updatedAt := t } else c }

/-- The body of `sendMessage` after the ownership check has succeeded:
insert the user message, load the history, look up the key, generate the
reply, insert the assistant message, bump the conversation timestamp. -/
def sendMessageFound (db : DB) (input : SendInput)
    (outcome : ProviderOutcome) (userMsgId asstMsgId t1 t2 t3 : Nat) :
    DB × Except TRPCErrorCode SendOutput :=
  let userMessage : Message :=
    ⟨userMsgId, t1, input.conversationId, .USER, input.content⟩
  let db1 : DB := { db with messages := db.messages ++ [userMessage] }
  let conversationHistory := historyQuery db1 input.conversationId
  let llmApiKey := findLlmApiKey db1 input.projectId
  let gen := generateResponse llmApiKey outcome conversationHistory
    input.content
  let assistantMessage : Message :=
    ⟨asstMsgId, t2, input.conversationId, .ASSISTANT, gen.1⟩
  let db2 : DB := { db1 with messages := db1.messages ++ [assistantMessage] }
  let db3 := updateConversationTimestamp db2 input.conversationId t3
  (db3, .ok ⟨userMessage, assistantMessage, gen.2⟩)

/-- The `sendMessage` procedure.  `userMsgId`/`asstMsgId` are the fresh row
ids Prisma generates, `t1`/`t2` the creation timestamps of the two inserted
messages, `t3` the `new Date()` written to the conversation.  Returns the
post-state paired with the result or thrown error. -/
def sendMessage (db : DB) (userId : Nat) (input : SendInput)
    (outcome : ProviderOutcome) (userMsgId asstMsgId t1 t2 t3 : Nat) :
    DB × Except TRPCErrorCode SendOutput :=
  match findConversation db input.conversationId input.projectId userId with
  | none => (db, .error .NOT_FOUND)
  | some _ =>
      sendMessageFound db input outcome userMsgId asstMsgId t1 t2 t3

/-- The raw, not yet validated input of the `sendMessage` endpoint. -/
structure RawSendInput where
  projectId : Nat
  conversationId : Nat
  content : String
deriving DecidableEq

/-- The `SendMessageSchema` zod object: `content: z.string().min(1)` (the identifier
fields are plain strings and always pass). -/
def sendMessageSchemaCheck (raw : RawSendInput) : Bool :=
  1 ≤ raw.content.length

/-- The `sendMessage` endpoint as the transport sees it: zod validation
first, business logic only on success. -/
def sendMessageEndpoint (db : DB) (userId : Nat) (raw : RawSendInput)
    (outcome : ProviderOutcome) (userMsgId asstMsgId t1 t2 t3 : Nat) :
    DB × Except TRPCErrorCode SendOutput :=
  if sendMessageSchemaCheck raw then
    sendMessage db userId ⟨raw.projectId, raw.conversationId, raw.content⟩
      outcome userMsgId asstMsgId t1 t2 t3
  else
    (db, .error .BAD_REQUEST)

/-- First row with the given conversation id (`where: { id }` lookup used
to observe a conversation's stored timestamps). -/
def getConversation (db : DB) (conversationId : Nat) : Option Conversation :=
  db.conversations.find? fun c => c.id == conversationId

/-! Concrete sample rows used by the witness theorems. -/

/-- Sample conversation: id 1, owned by user 10 in project 100. -/
def demoConv : Conversation := ⟨1, 0, 5, 10, 100⟩

/-- Sample user message in conversation 1. -/
def demoMsgU : Message := ⟨1, 1, 1, .USER, "hi"⟩

/-- Sample assistant message in conversation 1. -/
def demoMsgA : Message := ⟨2, 2, 1, .ASSISTANT, "yo"⟩

/-- Sample key for project 100 that passes schema validation. -/
def demoKeyOk : LlmApiKey := ⟨100, 3, true, ""⟩

/-- Sample database without any LLM API key. -/
def demoDBNoKey : DB := ⟨[demoConv], [demoMsgU, demoMsgA], []⟩

/-- Sample database with a valid LLM API key for project 100. -/
def demoDBKey : DB := ⟨[demoConv], [demoMsgU, demoMsgA], [demoKeyOk]⟩

/-- Sample database whose only conversation has no messages. -/
def demoDBEmptyConv : DB := ⟨[demoConv], [], []⟩

/-! Helper lemmas shared by the claim theorems. -/

theorem sendMessage_of_found (db : DB) (userId : Nat) (input : SendInput)
    (outcome : ProviderOutcome) (userMsgId asstMsgId t1 t2 t3 : Nat)
    (conv : Conversation)
    (h : findConversation db input.conversationId input.projectId userId
      = some conv) :
    sendMessage db userId input outcome userMsgId asstMsgId t1 t2 t3 =
      sendMessageFound db input outcome userMsgId asstMsgId t1 t2 t3 := by
  simp [sendMessage, h]

theorem sendMessageFound_eq (db : DB) (input : SendInput)
    (outcome : ProviderOutcome) (userMsgId asstMsgId t1 t2 t3 : Nat) :
    sendMessageFound db input outcome userMsgId asstMsgId t1 t2 t3 =
      (updateConversationTimestamp
        { db with messages := db.messages
            ++ [⟨userMsgId, t1, input.conversationId, .USER, input.content⟩]
            ++ [⟨asstMsgId, t2, input.conversationId, .ASSISTANT,
                  (generateResponse (findLlmApiKey db input.projectId) outcome
                    (historyQuery { db with messages := db.messages
                        ++ [⟨userMsgId, t1, input.conversationId, .USER,
                              input.content⟩] } input.conversationId)
                    input.content).1⟩] }
        input.conversationId t3,
       .ok ⟨⟨userMsgId, t1, input.conversationId, .USER, input.content⟩,
            ⟨asstMsgId, t2, input.conversationId, .ASSISTANT,
              (generateResponse (findLlmApiKey db input.projectId) outcome
                (historyQuery { db with messages := db.messages
                    ++ [⟨userMsgId, t1, input.conversationId, .USER,
                          input.content⟩] } input.conversationId)
                input.content).1⟩,
            (generateResponse (findLlmApiKey db input.projectId) outcome
              (historyQuery { db with messages := db.messages
                  ++ [⟨userMsgId, t1, input.conversationId, .USER,
                        input.content⟩] } input.conversationId)
              input.content).2⟩) := rfl

/-- C3: a send naming a conversation with no row matching all of
(conversation id, project id, caller id) fails with NOT_FOUND, writes no
message rows and performs no conversation update: the database is returned
unchanged. -/
theorem sendMessage_not_found (db : DB) (userId : Nat) (input : SendInput)
    (outcome : ProviderOutcome) (userMsgId asstMsgId t1 t2 t3 : Nat)
    (h : findConversation db input.conversationId input.projectId userId
      = none) :
    sendMessage db userId input outcome userMsgId asstMsgId t1 t2 t3 =
      (db, .error .NOT_FOUND) := by
  simp [sendMessage, h]

/-- Witness for C3: user 99 does not own conversation 1, so the send fails
with NOT_FOUND and leaves the database untouched. -/
theorem sendMessage_not_found_witness :
    findConversation demoDBNoKey 1 100 99 = none ∧
    sendMessage demoDBNoKey 99 ⟨100, 1, "hello"⟩ .nonText 5 6 7 8 9 =
      (demoDBNoKey, .error .NOT_FOUND) :=
  ⟨by decide,
   sendMessage_not_found demoDBNoKey 99 ⟨100, 1, "hello"⟩ .nonText 5 6 7 8 9
     (by decide)⟩

/-- C8: a send whose content is the empty string is rejected by the input
schema as a bad request before any business logic runs: the database is
returned unchanged. -/
theorem sendMessage_rejects_empty_content (db : DB) (userId : Nat)
    (raw : RawSendInput) (outcome : ProviderOutcome)
    (userMsgId asstMsgId t1 t2 t3 : Nat) (h : raw.content = "") :
    sendMessageEndpoint db userId raw outcome userMsgId asstMsgId t1 t2 t3 =
      (db, .error .BAD_REQUEST) := by
  simp [sendMessageEndpoint, sendMessageSchemaCheck, h]

/-- Witness for C8: sending "" to the owned conversation 1 is rejected as a
bad request without touching the database. -/
theorem sendMessage_rejects_empty_content_witness :
    (⟨100, 1, ""⟩ : RawSendInput).content = "" ∧
    sendMessageEndpoint demoDBNoKey 10 ⟨100, 1, ""⟩ .nonText 5 6 7 8 9 =
      (demoDBNoKey, .error .BAD_REQUEST) :=
  ⟨rfl,
   sendMessage_rejects_empty_content demoDBNoKey 10 ⟨100, 1, ""⟩ .nonText
     5 6 7 8 9 rfl⟩

/-- C5: on a project with no configured LLM API key, the send succeeds, the
assistant reply is the fixed onboarding text whose opening interpolates the
sent content, and the conversation gains exactly 2 messages. -/
theorem sendMessage_no_key_onboarding (db : DB) (userId : Nat)
    (input : SendInput) (outcome : ProviderOutcome)
    (userMsgId asstMsgId t1 t2 t3 : Nat) (conv : Conversation)
    (hconv : findConversation db input.conversationId input.projectId userId
      = some conv)
    (hkey : findLlmApiKey db input.projectId = none) :
    ∃ out,
      (sendMessage db userId input outcome userMsgId asstMsgId t1 t2 t3).2
        = .ok out ∧
      out.assistantMessage.content
        = onboardingIntro ++ input.content ++ onboardingOutro ∧
      (conversationMessages
          (sendMessage db userId input outcome userMsgId asstMsgId t1 t2 t3).1
          input.conversationId).length
        = (conversationMessages db input.conversationId).length + 2 := by
  rw [sendMessage_of_found db userId input outcome userMsgId asstMsgId
    t1 t2 t3 conv hconv, sendMessageFound_eq, hkey]
  refine ⟨_, rfl, ?_, ?_⟩
  · simp [generateResponse, onboardingResponse]
  · simp [updateConversationTimestamp, conversationMessages,
      List.filter_append]

/-- Witness for C5: sending "Hello" to owned conversation 1 with no key
configured yields the onboarding reply and a message count of 0 + 2. -/
theorem sendMessage_no_key_onboarding_witness :
    findConversation demoDBEmptyConv 1 100 10 = some demoConv ∧
    findLlmApiKey demoDBEmptyConv 100 = none ∧
    ∃ out,
      (sendMessage demoDBEmptyConv 10 ⟨100, 1, "Hello"⟩ .nonText 5 6 7 8 9).2
        = .ok out ∧
      out.assistantMessage.content
        = onboardingIntro ++ "Hello" ++ onboardingOutro ∧
      (conversationMessages
          (sendMessage demoDBEmptyConv 10 ⟨100, 1, "Hello"⟩ .nonText
            5 6 7 8 9).1 1).length
        = (conversationMessages demoDBEmptyConv 1).length + 2 :=
  ⟨by decide, by decide,
   sendMessage_no_key_onboarding demoDBEmptyConv 10 ⟨100, 1, "Hello"⟩
     .nonText 5 6 7 8 9 demoConv (by decide) (by decide)⟩

/-- C4: with a credential present, when the key fails schema validation or
the provider call throws, the send still succeeds and the persisted
assistant reply is the fixed error template with the captured error text
interpolated; in the provider-throw case with an `Error` instance the
interpolated text is exactly the thrown message. -/
theorem sendMessage_provider_error_reply (db : DB) (userId : Nat)
    (input : SendInput) (outcome : ProviderOutcome)
    (userMsgId asstMsgId t1 t2 t3 : Nat) (conv : Conversation)
    (key : LlmApiKey)
    (hconv : findConversation db input.conversationId input.projectId userId
      = some conv)
    (hkey : findLlmApiKey db input.projectId = some key)
    (hfail : key.parseOk = false ∨ ∃ m, outcome = .failure m) :
    ∃ out e,
      (sendMessage db userId input outcome userMsgId asstMsgId t1 t2 t3).2
        = .ok out ∧
      out.assistantMessage.content
        = errorResponseIntro ++ e ++ errorResponseOutro ∧
      (∀ m, key.parseOk = true → outcome = .failure (some m) → e = m) := by
  rw [sendMessage_of_found db userId input outcome userMsgId asstMsgId
    t1 t2 t3 conv hconv, sendMessageFound_eq, hkey]
  cases hp : key.parseOk with
  | false =>
      refine ⟨_, "Invalid API key configuration: " ++ key.parseErrMsg,
        rfl, ?_, ?_⟩
      · simp [generateResponse, hp, errorResponse]
      · exact fun m hTrue _ => absurd hTrue (by simp)
  | true =>
      rcases hfail with h | ⟨m, hm⟩
      · rw [hp] at h
        exact absurd h (by simp)
      · subst hm
        refine ⟨_, m.getD "Unknown error", rfl, ?_, ?_⟩
        · simp [generateResponse, hp, errorResponse]
        · intro m' _ hEq
          injection hEq with hEq0
          subst hEq0
          rfl

/-- Witness for C4: with the valid key configured and the provider throwing
"boom", the send succeeds and the reply embeds "boom" in the template. -/
theorem sendMessage_provider_error_reply_witness :
    findConversation demoDBKey 1 100 10 = some demoConv ∧
    findLlmApiKey demoDBKey 100 = some demoKeyOk ∧
    ∃ out e,
      (sendMessage demoDBKey 10 ⟨100, 1, "ping"⟩ (.failure (some "boom"))
        5 6 7 8 9).2 = .ok out ∧
      out.assistantMessage.content
        = errorResponseIntro ++ e ++ errorResponseOutro ∧
      (∀ m, demoKeyOk.parseOk = true →
        ProviderOutcome.failure (some "boom") = .failure (some m) → e = m) :=
  ⟨by decide, by decide,
   sendMessage_provider_error_reply demoDBKey 10 ⟨100, 1, "ping"⟩
     (.failure (some "boom")) 5 6 7 8 9 demoConv demoKeyOk (by decide)
     (by decide) (Or.inr ⟨some "boom", rfl⟩)⟩

theorem find?_cons_ite (p : Conversation → Bool) (a : Conversation)
    (l : List Conversation) :
    (a :: l).find? p = if p a = true then some a else l.find? p := by
  cases hpa : p a with
  | false => simp [List.find?_cons, hpa]
  | true => simp [List.find?_cons, hpa]

theorem find?_map_of_id_preserving (f : Conversation → Conversation)
    (p : Conversation → Bool) (hf : ∀ c, p (f c) = p c)
    (l : List Conversation) (c0 : Conversation)
    (h : l.find? p = some c0) :
    (l.map f).find? p = some (f c0) := by
  induction l with
  | nil => exact absurd h (by simp)
  | cons c l ih =>
      rw [find?_cons_ite] at h
      rw [List.map_cons, find?_cons_ite, hf c]
      by_cases hb : p c = true
      · rw [if_pos hb] at h
        injection h with h0
        subst h0
        rw [if_pos hb]
      · rw [if_neg hb] at h
        rw [if_neg hb]
        exact ih h

theorem find_update_timestamp (l : List Conversation) (cid t : Nat)
    (c0 : Conversation)
    (h : l.find? (fun c => c.id == cid) = some c0) :
    (l.map fun c => if c.id == cid then { c with updatedAt := t } else c).find?
        (fun c => c.id == cid)
      = some { c0 with updatedAt := t } := by
  have hp := List.find?_some h
  have hf : ∀ c : Conversation,
      ((if (c.id == cid) = true then { c with updatedAt := t } else c).id
          == cid)
        = (c.id == cid) := by
    intro c
    by_cases hb : (c.id == cid) = true
    · rw [if_pos hb]
    · rw [if_neg hb]
  exact (find?_map_of_id_preserving _ _ hf l c0 h).trans (by simp [hp])

theorem getConversation_isSome_of_found (db : DB) (conv : Conversation)
    (cid pid uid : Nat)
    (h : findConversation db cid pid uid = some conv) :
    ∃ c0, getConversation db cid = some c0 := by
  have hmem := List.mem_of_find?_eq_some h
  have hpred := List.find?_some h
  have hid : (conv.id == cid) = true := by
    simp only [Bool.and_eq_true] at hpred
    exact hpred.1.1
  have hsome : (db.conversations.find? fun c => c.id == cid).isSome := by
    rw [List.find?_isSome]
    exact ⟨conv, hmem, hid⟩
  exact Option.isSome_iff_exists.mp hsome

/-- C2: a send of non-empty content to an existing, owned conversation
returns one freshly persisted USER message carrying the sent content and
one freshly persisted ASSISTANT message — the post-state message table is
the old one with exactly those two rows appended — and the conversation's
update timestamp afterwards is ≥ its value before. -/
theorem sendMessage_success_shape (db : DB) (userId : Nat)
    (input : SendInput) (outcome : ProviderOutcome)
    (userMsgId asstMsgId t1 t2 t3 : Nat) (conv : Conversation)
    (hconv : findConversation db input.conversationId input.projectId userId
      = some conv)
    (hcontent : 1 ≤ input.content.length)
    (ht : conv.updatedAt ≤ t3) :
    ∃ out,
      (sendMessage db userId input outcome userMsgId asstMsgId t1 t2 t3).2
        = .ok out ∧
      out.userMessage.sender = .USER ∧
      out.userMessage.content = input.content ∧
      out.assistantMessage.sender = .ASSISTANT ∧
      (sendMessage db userId input outcome userMsgId asstMsgId t1 t2 t3).1.messages
        = db.messages ++ [out.userMessage, out.assistantMessage] ∧
      ∃ c1,
        getConversation
            (sendMessage db userId input outcome userMsgId asstMsgId
              t1 t2 t3).1 input.conversationId
          = some c1 ∧
        conv.updatedAt ≤ c1.updatedAt := by
  rw [sendMessage_of_found db userId input outcome userMsgId asstMsgId
    t1 t2 t3 conv hconv, sendMessageFound_eq]
  refine ⟨_, rfl, rfl, rfl, rfl, ?_, ?_⟩
  · simp [updateConversationTimestamp]
  · obtain ⟨c0, hc0⟩ := getConversation_isSome_of_found db conv
      input.conversationId input.projectId userId hconv
    exact ⟨{ c0 with updatedAt := t3 },
      find_update_timestamp db.conversations input.conversationId t3 c0 hc0,
      ht⟩

/-- Witness for C2: sending "ping" to owned conversation 1 at time 9 ≥ 5
persists exactly one USER and one ASSISTANT message and bumps the
timestamp. -/
theorem sendMessage_success_shape_witness :
    findConversation demoDBNoKey 1 100 10 = some demoConv ∧
    1 ≤ ("ping" : String).length ∧
    demoConv.updatedAt ≤ 9 ∧
    ∃ out,
      (sendMessage demoDBNoKey 10 ⟨100, 1, "ping"⟩ .nonText 5 6 7 8 9).2
        = .ok out ∧
      out.userMessage.sender = .USER ∧
      out.userMessage.content = "ping" ∧
      out.assistantMessage.sender = .ASSISTANT ∧
      (sendMessage demoDBNoKey 10 ⟨100, 1, "ping"⟩ .nonText 5 6 7 8 9).1.messages
        = demoDBNoKey.messages ++ [out.userMessage, out.assistantMessage] ∧
      ∃ c1,
        getConversation
            (sendMessage demoDBNoKey 10 ⟨100, 1, "ping"⟩ .nonText
              5 6 7 8 9).1 1
          = some c1 ∧
        demoConv.updatedAt ≤ c1.updatedAt :=
  ⟨by decide, by decide, by decide,
   sendMessage_success_shape demoDBNoKey 10 ⟨100, 1, "ping"⟩ .nonText
     5 6 7 8 9 demoConv (by decide) (by decide) (by decide)⟩

/-- A conversation with 21 messages, creation times 1..21, all in
conversation 1: the concrete input on which the history query drops the
newest message instead of the oldest. -/
def c1Messages : List Message :=
  (List.range 21).map fun i => ⟨i + 1, i + 1, 1, .USER, "m"⟩

/-- Database holding `c1Messages` under conversation 1. -/
def c1DB : DB := ⟨[⟨1, 0, 0, 10, 100⟩], c1Messages, []⟩

/-- C1 (refuted, code bug): on a conversation that has 21 messages with
creation times 1..21 when the history is loaded, the history query
(`orderBy: createdAt asc, take: 20`) returns the messages with creation
times 1..20 — the EARLIEST twenty — and not the times 2..21 that "the 20
messages with the latest creation times, sorted ascending" (the claim, the
spec and the code's own `// Last 20 messages for context` comment) would
be. -/
theorem historyQuery_loads_earliest_twenty :
    (historyQuery c1DB 1).map Message.createdAt
      = (List.range 20).map (· + 1) ∧
    (historyQuery c1DB 1).map Message.createdAt
      ≠ (List.range 20).map (· + 2) := by
  constructor
  · decide
  · decide

/-- C6: `byId` fails with NOT_FOUND when no row matches (id, project,
owner) — including existing conversations of another user or project — and
on a match returns that conversation with all of its messages in
non-decreasing creation-time order. -/
theorem byId_spec (db : DB) (userId projectId conversationId : Nat) :
    (findConversation db conversationId projectId userId = none →
      byId db userId projectId conversationId = .error .NOT_FOUND) ∧
    ∀ conv,
      findConversation db conversationId projectId userId = some conv →
      ∃ msgs,
        byId db userId projectId conversationId = .ok ⟨conv, msgs⟩ ∧
        msgs.Perm (conversationMessages db conv.id) ∧
        msgs.Sorted msgLE := by
  constructor
  · intro h
    simp [byId, h]
  · intro conv h
    exact ⟨_, by simp [byId, h], List.perm_insertionSort msgLE _,
      List.sorted_insertionSort msgLE _⟩

/-- Witness for C6: for owned conversation 1, `byId` returns the
conversation and a sorted permutation of its two messages. -/
theorem byId_spec_witness :
    findConversation demoDBNoKey 1 100 10 = some demoConv ∧
    ∃ msgs,
      byId demoDBNoKey 10 100 1 = .ok ⟨demoConv, msgs⟩ ∧
      msgs.Perm (conversationMessages demoDBNoKey demoConv.id) ∧
      msgs.Sorted msgLE :=
  ⟨by decide, (byId_spec demoDBNoKey 10 100 1).2 demoConv (by decide)⟩

theorem head_insertionSort_msgGE_max (l : List Message) (m : Message)
    (hm : m ∈ l) :
    ∃ lm, (l.insertionSort msgGE).head? = some lm ∧ lm ∈ l ∧
      m.createdAt ≤ lm.createdAt := by
  have hperm := List.perm_insertionSort msgGE l
  have hs := List.sorted_insertionSort msgGE l
  cases hsort : l.insertionSort msgGE with
  | nil =>
      rw [hsort] at hperm
      have hl : l = [] := hperm.symm.eq_nil
      rw [hl] at hm
      exact absurd hm (by simp)
  | cons lm rest =>
      refine ⟨lm, rfl, ?_, ?_⟩
      · have hlm : lm ∈ l.insertionSort msgGE := by
          rw [hsort]
          exact List.mem_cons_self lm rest
        exact hperm.mem_iff.mp hlm
      · have hm2 : m ∈ lm :: rest := by
          rw [← hsort]
          exact hperm.mem_iff.mpr hm
        rcases List.mem_cons.mp hm2 with h | h
        · subst h
          exact le_refl _
        · rw [hsort] at hs
          exact (List.pairwise_cons.mp hs).1 m h

/-- C7: the listing consists of exactly the caller's conversations in the
project (a permutation of the ownership filter), is sorted by update time
descending, and each entry carries the conversation's total message count
and a most-recently-created message of that conversation. -/
theorem all_spec (db : DB) (userId projectId : Nat) :
    ∃ convs : List Conversation,
      convs.Perm (db.conversations.filter fun c =>
        c.projectId == projectId && c.userId == userId) ∧
      all db userId projectId = convs.map (conversationSummary db) ∧
      (all db userId projectId).Pairwise
        (fun s1 s2 => s2.updatedAt ≤ s1.updatedAt) ∧
      ∀ s ∈ all db userId projectId,
        s.messageCount = (conversationMessages db s.id).length ∧
        ∀ m ∈ conversationMessages db s.id,
          ∃ lm, s.lastMessage = some lm ∧
            lm ∈ conversationMessages db s.id ∧
            m.createdAt ≤ lm.createdAt := by
  refine ⟨(db.conversations.filter fun c =>
      c.projectId == projectId && c.userId == userId).insertionSort convGE,
    List.perm_insertionSort convGE (db.conversations.filter fun c =>
      c.projectId == projectId && c.userId == userId), ?_, ?_, ?_⟩
  · rfl
  · exact (List.sorted_insertionSort convGE _).map _
      (fun a b hab => hab)
  · intro s hs
    obtain ⟨c, hc, rfl⟩ := List.mem_map.mp hs
    exact ⟨rfl, fun m hm => head_insertionSort_msgGE_max _ m hm⟩

/-- Witness for C7 at a concrete database. -/
theorem all_spec_witness :
    ∃ convs : List Conversation,
      convs.Perm (demoDBNoKey.conversations.filter fun c =>
        c.projectId == 100 && c.userId == 10) ∧
      all demoDBNoKey 10 100 = convs.map (conversationSummary demoDBNoKey) ∧
      (all demoDBNoKey 10 100).Pairwise
        (fun s1 s2 => s2.updatedAt ≤ s1.updatedAt) ∧
      ∀ s ∈ all demoDBNoKey 10 100,
        s.messageCount = (conversationMessages demoDBNoKey s.id).length ∧
        ∀ m ∈ conversationMessages demoDBNoKey s.id,
          ∃ lm, s.lastMessage = some lm ∧
            lm ∈ conversationMessages demoDBNoKey s.id ∧
            m.createdAt ≤ lm.createdAt :=
  all_spec demoDBNoKey 10 100

/-- C9: a listed conversation with zero messages has `lastMessage = none`
and `messageCount = 0`. -/
theorem all_empty_conversation (db : DB) (userId projectId : Nat)
    (s : ConversationSummary) (hs : s ∈ all db userId projectId)
    (hempty : conversationMessages db s.id = []) :
    s.lastMessage = none ∧ s.messageCount = 0 := by
  obtain ⟨c, hc, rfl⟩ := List.mem_map.mp hs
  have he : conversationMessages db c.id = [] := hempty
  constructor
  · show ((conversationMessages db c.id).insertionSort msgGE).head? = none
    rw [he]
    rfl
  · show (conversationMessages db c.id).length = 0
    rw [he]
    rfl

/-- Witness for C9: the message-less conversation 1 is listed with
`lastMessage = none` and count 0. -/
theorem all_empty_conversation_witness :
    conversationSummary demoDBEmptyConv demoConv ∈ all demoDBEmptyConv 10 100 ∧
    (conversationSummary demoDBEmptyConv demoConv).lastMessage = none ∧
    (conversationSummary demoDBEmptyConv demoConv).messageCount = 0 :=
  ⟨by decide,
   all_empty_conversation demoDBEmptyConv 10 100 _ (by decide) (by decide)⟩

theorem orderedInsert_append_single (x m : Message) (l : List Message)
    (h : msgLE x m) :
    List.orderedInsert msgLE x (l ++ [m])
      = List.orderedInsert msgLE x l ++ [m] := by
  induction l with
  | nil => simp [List.orderedInsert, h]
  | cons b l ih =>
      by_cases hb : msgLE x b
      · simp [List.orderedInsert, hb]
      · simp [List.orderedInsert, hb, ih]

theorem insertionSort_append_max (l : List Message) (m : Message)
    (h : ∀ x ∈ l, msgLE x m) :
    (l ++ [m]).insertionSort msgLE = l.insertionSort msgLE ++ [m] := by
  induction l with
  | nil => simp [List.insertionSort]
  | cons x l ih =>
      have hx : msgLE x m := h x (List.mem_cons_self x l)
      have hrest : ∀ y ∈ l, msgLE y m :=
        fun y hy => h y (List.mem_cons_of_mem x hy)
      show List.orderedInsert msgLE x ((l ++ [m]).insertionSort msgLE)
        = List.orderedInsert msgLE x (l.insertionSort msgLE) ++ [m]
      rw [ih hrest]
      exact orderedInsert_append_single x m _ hx

/-- C10: when a provider call is made (key present and schema-valid) on a
conversation that had fewer than 20 messages before the send, the message
list passed to the completion provider ends with the new user content
twice: once as the last mapped history turn (the just-persisted user
message) and once as the final appended user turn. -/
theorem sendMessage_prompt_contains_content_twice (db : DB) (userId : Nat)
    (input : SendInput) (outcome : ProviderOutcome)
    (userMsgId asstMsgId t1 t2 t3 : Nat) (conv : Conversation)
    (key : LlmApiKey)
    (hconv : findConversation db input.conversationId input.projectId userId
      = some conv)
    (hkey : findLlmApiKey db input.projectId = some key)
    (hparse : key.parseOk = true)
    (hcount : (conversationMessages db input.conversationId).length < 20)
    (htime : ∀ m ∈ conversationMessages db input.conversationId,
      m.createdAt ≤ t1) :
    ∃ out l0,
      (sendMessage db userId input outcome userMsgId asstMsgId t1 t2 t3).2
        = .ok out ∧
      out.llmPrompt = some (l0 ++
        [userChatMessage input.content, userChatMessage input.content]) := by
  rw [sendMessage_of_found db userId input outcome userMsgId asstMsgId
    t1 t2 t3 conv hconv, sendMessageFound_eq, hkey]
  set um : Message :=
    ⟨userMsgId, t1, input.conversationId, .USER, input.content⟩ with hum
  have hfilter : conversationMessages
      { db with messages := db.messages ++ [um] } input.conversationId
    = conversationMessages db input.conversationId ++ [um] := by
    simp [conversationMessages, List.filter_append, hum]
  have htime2 : ∀ x ∈ conversationMessages db input.conversationId,
      msgLE x um := by
    intro x hx
    simpa [msgLE, hum] using htime x hx
  have hsort := insertionSort_append_max
    (conversationMessages db input.conversationId) um htime2
  have hlen : ((conversationMessages db input.conversationId).insertionSort
      msgLE ++ [um]).length ≤ 20 := by
    rw [List.length_append, List.length_insertionSort]
    simp only [List.length_cons, List.length_nil]
    omega
  have hhist : historyQuery
      { db with messages := db.messages ++ [um] } input.conversationId
    = (conversationMessages db input.conversationId).insertionSort msgLE
        ++ [um] := by
    unfold historyQuery
    rw [hfilter, hsort, List.take_of_length_le hlen]
  rw [hhist]
  refine ⟨_, systemChatMessage ::
    ((conversationMessages db input.conversationId).insertionSort
      msgLE).map chatMessageOfMessage, rfl, ?_⟩
  cases outcome <;>
    simp [generateResponse, hparse, buildPrompt, chatMessageOfMessage,
      userChatMessage, hum]

/-- Witness for C10: with the valid key and 2 prior messages, the prompt
sent for "again" ends with the content "again" twice. -/
theorem sendMessage_prompt_contains_content_twice_witness :
    findConversation demoDBKey 1 100 10 = some demoConv ∧
    findLlmApiKey demoDBKey 100 = some demoKeyOk ∧
    demoKeyOk.parseOk = true ∧
    (conversationMessages demoDBKey 1).length < 20 ∧
    (∀ m ∈ conversationMessages demoDBKey 1, m.createdAt ≤ 7) ∧
    ∃ out l0,
      (sendMessage demoDBKey 10 ⟨100, 1, "again"⟩ (.success "fine")
        5 6 7 8 9).2 = .ok out ∧
      out.llmPrompt = some (l0 ++
        [userChatMessage "again", userChatMessage "again"]) :=
  ⟨by decide, by decide, by decide, by decide, by decide,
   sendMessage_prompt_contains_content_twice demoDBKey 10 ⟨100, 1, "again"⟩
     (.success "fine") 5 6 7 8 9 demoConv demoKeyOk (by decide) (by decide)
     (by decide) (by decide) (by decide)⟩

end Conversations
